import Mathlib

set_option maxRecDepth 2048

/-!
Verification development for the news scraping pipeline: shallow embedding of
the fetch coordinator (`scrapers/base/hybrid_scraper.py`), the polite HTTP
fetcher (`scrapers/base/base_scraper.py`), the article fetch coordinator
(`core/article_fetcher.py`), the RSS collector (`core/rss_collector.py`), the
seen-state manager (`utils/state_manager.py`) and the SQLite persistence layer
(`core/db.py`), together with proofs about the claims of the specification.

Strings that are scanned character-wise (HTML bodies, queries, stored text) are
embedded as `List Char`; identifiers (URLs, portal ids, modes) stay `String`.
Python `str.lower` is modelled with `Char.toLower` (the texts scanned by the
code are ASCII); SQLite `LIKE` folds ASCII case, which `Char.toLower` matches
exactly. Wall-clock time is modelled with `ℚ`.
-/

namespace NewsScrap

/-- Character-list strings, used for text that the code scans or slices. -/
abbrev Str := List Char

/-- Model of Python `s.lower()` (ASCII folding via `Char.toLower`). -/
def lowerStr (s : Str) : Str := s.map Char.toLower

/-- Substring test: `pat` occurs contiguously inside `s`.  Models Python
`pat in s`. -/
def containsSub (pat s : Str) : Bool := decide (pat <:+: s)

/-- A keyword list matches a text when any keyword occurs in it.  Models
`any(k in text for k in keywords)`. -/
def anyKeyword (kws : List Str) (text : Str) : Bool :=
  kws.any (fun k => containsSub k text)

/-! ## HTTP responses and outcomes of `BaseScraper.get`

`scrapers/base/base_scraper.py` returns a `requests.Response` or `None`.  The
fields the repository reads are the status code, the body text and the
`Retry-After` header; the response URL is only logged. -/

/-- The observable part of a `requests.Response`. -/
structure Resp where
  status : Nat
  text : Str
  retryAfter : Option String
deriving DecidableEq

/-- What `HybridScraper._fetch_with_base_and_check` can observe of a call to
`BaseScraper.get`: an exception, a `None` return, or a response. -/
inductive HttpOutcome where
  | exn
  | noResp
  | resp (r : Resp)
deriving DecidableEq

/-! ## HybridScraper (`scrapers/base/hybrid_scraper.py`) -/

/-- Model of `BLOCK_STATUS_CODES` from `hybrid_scraper.py`. -/
def BLOCK_STATUS_CODES : List Nat := [403, 429, 503, 520, 521, 522]

/-- The `suspicious_keywords` list of `HybridScraper._looks_like_block_page`. -/
def suspiciousKeywords : List Str :=
  [ "access denied".data
  , "request blocked".data
  , "just a moment".data
  , "cloudflare".data
  , "incapsula".data
  , "are you a robot".data
  , "verify you are human".data
  , "checking your browser".data
  , "to continue, please verify".data
  , "bot detection".data
  , "captcha".data ]

/-- Configuration of a `HybridScraper` instance.  `hasBrowser` is whether
`browser_scraper` was provided (non-`None`). -/
structure HybridCfg where
  hasBrowser : Bool
  hardDomains : List String
  minBlockHtmlLen : Nat := 2000
deriving DecidableEq

/-- Model of `HybridScraper._looks_like_block_page`: very short HTML, or HTML whose
lower-cased text contains a suspicious keyword, is treated as a block page. -/
def looks_like_block_page (cfg : HybridCfg) (html : Str) : Bool :=
  if html.isEmpty || html.length < cfg.minBlockHtmlLen then true
  else anyKeyword suspiciousKeywords (lowerStr html)

/-- Model of `HybridScraper._fetch_with_base_and_check`: returns the parsed soup (here,
the HTML text itself stands for its parse) and the blocked flag.  Exceptions
from `BaseScraper.get` are caught and count as blocked; `None` counts as
blocked; block statuses and other non-200 statuses count as blocked with no
soup; a 200 response yields a soup plus the block-page heuristic. -/
def fetch_with_base_and_check (cfg : HybridCfg) (o : HttpOutcome) :
    Option Str × Bool :=
  match o with
  | .exn => (none, true)
  | .noResp => (none, true)
  | .resp r =>
    if r.status ∈ BLOCK_STATUS_CODES then (none, true)
    else if r.status ≠ 200 then (none, true)
    else (some r.text, looks_like_block_page cfg r.text)

/-- Model of `HybridScraper._fetch_with_browser` given the browser fetcher's raw return
(`None` or an HTML string): falsy HTML becomes `None`, otherwise the parse. -/
def fetch_with_browser (browserO : Option Str) : Option Str :=
  match browserO with
  | none => none
  | some h => if h.isEmpty then none else some h

/-- Which underlying fetchers a `HybridScraper.fetch_html` call invoked. -/
inductive FetchEvent where
  | http
  | browser
deriving DecidableEq

/-- Model of `HybridScraper.fetch_html`.  `netloc` is `urlparse(url).netloc` of the
requested URL; `httpO` is the oracle for the one `BaseScraper.get` call that
may be issued and `browserO` for the one `BrowserScraper.fetch_html` call that
may be issued.  The `Except` error models a raised `ValueError` or
`RuntimeError`; the event list records the fetchers invoked, in order. -/
def fetch_html (cfg : HybridCfg) (netloc : String) (mode : String)
    (httpO : HttpOutcome) (browserO : Option Str) :
    Except String (Option Str) × List FetchEvent :=
  if mode ∉ ["simple", "browser", "auto"] then (.error "ValueError", [])
  else if mode = "auto" ∧ netloc ∈ cfg.hardDomains ∧ cfg.hasBrowser then
    (.ok (fetch_with_browser browserO), [.browser])
  else if mode = "browser" then
    if cfg.hasBrowser then (.ok (fetch_with_browser browserO), [.browser])
    else (.error "RuntimeError", [])
  else
    -- The source binds `soup, blocked = self._fetch_with_base_and_check(url)`
    -- once; `fetch_with_base_and_check` is pure in this model, so the
    -- repeated applications below all denote that single call.
    if mode = "simple" then (.ok (fetch_with_base_and_check cfg httpO).1, [.http])
    else if (fetch_with_base_and_check cfg httpO).1.isSome
        ∧ (fetch_with_base_and_check cfg httpO).2 = false then
      (.ok (fetch_with_base_and_check cfg httpO).1, [.http])
    else if cfg.hasBrowser then
      (.ok (fetch_with_browser browserO), [.http, .browser])
    else (.ok (fetch_with_base_and_check cfg httpO).1, [.http])

/-- The blocked-classification exactly as the claim words it: no response or a
reported block, a designated block status, any other non-200 status, or HTML
shorter than the minimum length threshold.  Stated from the specification for
comparison with `fetch_with_base_and_check`. -/
def claimBlocked (cfg : HybridCfg) (o : HttpOutcome) : Bool :=
  match o with
  | .exn => true
  | .noResp => true
  | .resp r =>
    r.status ∈ BLOCK_STATUS_CODES || r.status ≠ 200
      || r.text.length < cfg.minBlockHtmlLen

/-- The amended blocked-classification: as `claimBlocked`, plus empty HTML and
HTML whose lower-cased text contains one of the suspicious block keywords. -/
def claimBlockedAmended (cfg : HybridCfg) (o : HttpOutcome) : Bool :=
  match o with
  | .exn => true
  | .noResp => true
  | .resp r =>
    r.status ∈ BLOCK_STATUS_CODES || r.status ≠ 200
      || r.text.isEmpty || r.text.length < cfg.minBlockHtmlLen
      || anyKeyword suspiciousKeywords (lowerStr r.text)

/-! ## BaseScraper (`scrapers/base/base_scraper.py`) -/

/-- The block-page phrases scanned by `BaseScraper.get` on a 200 response. -/
def baseBlockKeywords : List Str :=
  [ "cloudflare".data
  , "attention required".data
  , "verify you are human".data
  , "are you a robot".data
  , "just a moment".data
  , "checking your browser".data ]

/-- Configuration of a `BaseScraper` instance (defaults from the source). -/
structure BaseCfg where
  minDelay : ℚ := 3 / 2
  maxDelay : ℚ := 4
  maxRetries : Nat := 3
deriving DecidableEq

/-- Outcome of one `session.get` attempt inside `BaseScraper.get`: either a
`requests.RequestException`, or a response. -/
inductive Attempt where
  | netError
  | resp (r : Resp)
deriving DecidableEq

/-- Decimal digit-run parser used to model Python `int`. -/
def parseNatDigits (l : List Char) : Option Nat :=
  if l.isEmpty then none
  else if l.all Char.isDigit then
    some (l.foldl (fun n c => 10 * n + (c.toNat - 48)) 0)
  else none

/-- Model of Python `int(s)` on the header strings the code feeds it: an
optional sign and digits, with surrounding whitespace tolerated; anything
else raises `ValueError` (`none` here). -/
def pyInt? (s : String) : Option Int :=
  match (s.data.dropWhile Char.isWhitespace).reverse.dropWhile Char.isWhitespace
      |>.reverse with
  | '-' :: rest => (parseNatDigits rest).map (fun n => -(n : Int))
  | '+' :: rest => (parseNatDigits rest).map (fun n => (n : Int))
  | t => (parseNatDigits t).map (fun n => (n : Int))

/-- Result of `BaseScraper.get`: the returned value (where `Except.error ()`
models an exception propagating out of `get`), together with the sleep
durations in seconds the call performed after each non-final attempt, in
order (the durations the code sleeps are whole seconds or the parsed integer
`Retry-After` value). -/
structure GetOut where
  result : Except Unit (Option Resp)
  sleeps : List Int

instance instDecEqGetResult : DecidableEq (Except Unit (Option Resp)) :=
  fun a b =>
    match a, b with
    | .ok x, .ok y => decidable_of_iff (x = y) (by simp)
    | .error x, .error y => isTrue (by cases x; cases y; rfl)
    | .ok _, .error _ => isFalse (fun h => Except.noConfusion h)
    | .error _, .ok _ => isFalse (fun h => Except.noConfusion h)

/-- The retry loop of `BaseScraper.get`.  `oracle n` is the outcome of the
n-th `session.get` attempt; `attempt` is the 1-based loop counter and `fuel`
the number of attempts remaining.  Redirect statuses are returned as-is; a 200
response is returned unless a block-page phrase occurs, in which case `None`
is returned at once; 403/429 parse `Retry-After` with `int(...)` (a parse
failure propagates a `ValueError`), sleep that value when positive or the
`5 * attempt` backoff otherwise, and retry; other statuses and network errors
sleep `2 * attempt` and retry; an exhausted budget returns `None`. -/
def getLoop (oracle : Nat → Attempt) : Nat → Nat → List Int → GetOut
  | _, 0, sleeps => ⟨.ok none, sleeps.reverse⟩
  | attempt, fuel + 1, sleeps =>
    match oracle attempt with
    | .netError =>
      getLoop oracle (attempt + 1) fuel (((2 * attempt : Nat) : Int) :: sleeps)
    | .resp r =>
      if r.status ∈ [301, 302, 303, 307, 308] then ⟨.ok (some r), sleeps.reverse⟩
      else if r.status = 200 then
        if anyKeyword baseBlockKeywords (lowerStr r.text) then
          ⟨.ok none, sleeps.reverse⟩
        else ⟨.ok (some r), sleeps.reverse⟩
      else if r.status = 403 ∨ r.status = 429 then
        match pyInt? (r.retryAfter.getD "0") with
        | none => ⟨.error (), sleeps.reverse⟩
        | some ra =>
          if ra > 0 then getLoop oracle (attempt + 1) fuel (ra :: sleeps)
          else
            getLoop oracle (attempt + 1) fuel (((5 * attempt : Nat) : Int) :: sleeps)
      else getLoop oracle (attempt + 1) fuel (((2 * attempt : Nat) : Int) :: sleeps)

/-- Model of `BaseScraper.get` for a configured retry budget. -/
def base_get (cfg : BaseCfg) (oracle : Nat → Attempt) : GetOut :=
  getLoop oracle 1 cfg.maxRetries []

/-! ## Per-domain pacing (`_sleep_if_needed`, C9)

The clock is explicit: a state carries the current time and the per-domain
last-request timestamps (`time.time()` values, hence positive reals in any
real execution).  `random.uniform(min_delay, max_delay)` is passed in as the
`target` sample.  `time.sleep(d)` advances the clock by exactly `d`. -/

/-- Pacing state: current wall-clock time and per-domain last-request
timestamps. -/
structure PaceState where
  now : ℚ
  lastTs : String → Option ℚ

/-- Model of `BaseScraper._sleep_if_needed`: absent timestamp means no sleep; otherwise
sleep exactly enough that the elapsed time since the recorded timestamp
reaches the sampled `target`. -/
def sleep_if_needed (target : ℚ) (netloc : String) (st : PaceState) : PaceState :=
  match st.lastTs netloc with
  | none => st
  | some last =>
    let elapsed := st.now - last
    if elapsed < target then { st with now := st.now + (target - elapsed) } else st

/-- Model of `BrowserScraper._sleep_if_needed`: identical except for the Python
truthiness test `if last:`, under which a recorded timestamp of exactly `0.0`
is treated as absent. -/
def browser_sleep_if_needed (target : ℚ) (netloc : String) (st : PaceState) :
    PaceState :=
  match st.lastTs netloc with
  | none => st
  | some last =>
    if last = 0 then st
    else
      let elapsed := st.now - last
      if elapsed < target then { st with now := st.now + (target - elapsed) } else st

/-- Model of `_update_last_ts`: record the current time for one domain. -/
def update_last_ts (netloc : String) (st : PaceState) : PaceState :=
  { st with lastTs := fun d => if d = netloc then some st.now else st.lastTs d }

/-- Default `min_delay` of `BaseScraper` (1.5 s). -/
def baseMinDelay : ℚ := 3 / 2

/-- Default `min_delay` of `BrowserScraper` (3.0 s). -/
def browserMinDelay : ℚ := 3

/-! ## Article fetch coordinator (`core/article_fetcher.py`, C3) -/

/-- The portal configuration fields `fetch_article_soup` reads. -/
structure PortalCfg where
  enabled : Bool := true
  scrapeMode : String := "simple"
  hardDomains : List String := []
deriving DecidableEq

/-- A network request issued on behalf of one `fetch_article_soup` call,
classified by fetching layer. -/
inductive CallEvent where
  | httpReq
  | renderReq
deriving DecidableEq

/-- Conversion of hybrid-scraper events into coordinator events. -/
def toCallEvent : FetchEvent → CallEvent
  | .http => .httpReq
  | .browser => .renderReq

/-- Model of `BaseScraper.fetch_html` as used by `fetch_article_soup` in simple mode:
`get` exceptions are caught at the call site (yielding `None`), a `None`
response yields `None`, any response is parsed.  The status is not consulted
because `get` only ever returns 200-clean or redirect responses. -/
def base_fetch_html (o : HttpOutcome) : Option Str :=
  match o with
  | .exn => none
  | .noResp => none
  | .resp r => some r.text

/-- Model of `fetch_article_soup`.  `portals` is the `PORTALS` registry;
`hybridAvailable` is whether `_get_hybrid` succeeds (which requires the
browser scraper, so the resulting hybrid always has a browser configured);
`httpO` and `browserO` are the oracles for the at most one HTTP and at most
one browser fetch.  The event list records the fetcher invocations issued. -/
def fetch_article_soup (portals : String → Option PortalCfg) (portal : String)
    (netloc : String) (hybridAvailable : Bool)
    (httpO : HttpOutcome) (browserO : Option Str) :
    Option Str × List CallEvent :=
  match portals portal with
  | none => (none, [])
  | some cfg =>
    if cfg.enabled = false then (none, [])
    else if cfg.scrapeMode = "rss_only" then (none, [])
    else if cfg.scrapeMode = "simple" then (base_fetch_html httpO, [.httpReq])
    else if ¬hybridAvailable then (base_fetch_html httpO, [.httpReq])
    else
      let hmode := if cfg.scrapeMode = "browser" then "browser" else "auto"
      let hybridCfg : HybridCfg :=
        { hasBrowser := true, hardDomains := cfg.hardDomains }
      let out := fetch_html hybridCfg netloc hmode httpO browserO
      (match out.1 with
       | .ok s => s
       | .error _ => none, out.2.map toCallEvent)

/-! ## StateManager (`utils/state_manager.py`) and RSS collection
(`core/rss_collector.py`)

The in-memory seen set holds URL hashes; `StateManager._hash` is MD5 hex,
parametrised here as an arbitrary `hash : String → String` since none of the
claimed properties depend on the digest function.  The set is modelled as a
list with membership. -/

/-- The set of seen URL hashes. -/
abbrev SeenSet := List String

/-- Model of `StateManager.seen`: membership of the URL's hash. -/
def sm_seen (hash : String → String) (st : SeenSet) (url : String) : Bool :=
  hash url ∈ st

/-- Model of `StateManager.mark_seen`: add the URL's hash if absent (and persist; the
file write does not change the in-memory set). -/
def sm_mark_seen (hash : String → String) (st : SeenSet) (url : String) :
    SeenSet :=
  if hash url ∈ st then st else hash url :: st

/-- A parsed RSS entry, reduced to the fields `collect` reads: the link (which
may be missing or empty) and the resolution of `_parse_rss_date` for the
entry (abstracted, since only the link drives control flow). -/
structure RssEntry where
  link : Option String
  rssDate : Option String
deriving DecidableEq

/-- An item of the list returned by `collect`. -/
structure CandidateItem where
  source : String
  link : String
  rssDate : Option String
deriving DecidableEq

/-- One enabled portal as `collect` sees it: its id and, per configured feed
URL, either `none` (`_load_feed` failed) or the parsed entry list. -/
structure PortalFeeds where
  portalId : String
  feeds : List (Option (List RssEntry))

/-- The inner entry loop of `collect`: entries without a truthy link are
skipped; seen links are skipped; new links are marked seen immediately and
emitted. -/
def collectEntries (hash : String → String) (portalId : String) :
    List RssEntry → SeenSet → List CandidateItem × SeenSet
  | [], st => ([], st)
  | e :: rest, st =>
    match e.link with
    | none => collectEntries hash portalId rest st
    | some l =>
      if l = "" then collectEntries hash portalId rest st
      else if sm_seen hash st l then collectEntries hash portalId rest st
      else
        let st' := sm_mark_seen hash st l
        let out := collectEntries hash portalId rest st'
        (⟨portalId, l, e.rssDate⟩ :: out.1, out.2)

/-- The feed loop of `collect` for one portal: failed feeds are skipped. -/
def collectFeeds (hash : String → String) (portalId : String) :
    List (Option (List RssEntry)) → SeenSet → List CandidateItem × SeenSet
  | [], st => ([], st)
  | none :: rest, st => collectFeeds hash portalId rest st
  | some entries :: rest, st =>
    let out := collectEntries hash portalId entries st
    let out' := collectFeeds hash portalId rest out.2
    (out.1 ++ out'.1, out'.2)

/-- Model of `collect`: iterate all enabled portals, threading the seen state. -/
def collect (hash : String → String) :
    List PortalFeeds → SeenSet → List CandidateItem × SeenSet
  | [], st => ([], st)
  | p :: rest, st =>
    let out := collectFeeds hash p.portalId p.feeds st
    let out' := collect hash rest out.2
    (out.1 ++ out'.1, out'.2)

/-! ## Storage engine (`core/db.py`) -/

/-- A row of the `news` table (`id` and `created_at` are left implicit: the
list position is the insertion order, which is also the `id` order under
`AUTOINCREMENT`). -/
structure NewsRow where
  portal : String
  url : String
  title : Option String
  content : Option String
  topic : Option String
  pubDate : Option String
deriving DecidableEq

/-- The `news` table in insertion order. -/
abbrev NewsDb := List NewsRow

/-- Whether some stored row already has the given URL (the `UNIQUE`
constraint's view). -/
def urlExists (db : NewsDb) (u : String) : Bool := db.any (fun r => r.url = u)

/-- Model of `INSERT OR IGNORE` of one row keyed by the unique `url` column: returns
whether a row was inserted (`cur.rowcount > 0`) and the new table. -/
def insertOrIgnore (db : NewsDb) (row : NewsRow) : Bool × NewsDb :=
  if urlExists db row.url then (false, db) else (true, db ++ [row])

/-- Model of `insert_news` from `core/db.py`: a single `INSERT OR IGNORE`, true iff a
row was newly inserted; a duplicate URL is ignored, not an error. -/
def insert_news (db : NewsDb) (portal url : String)
    (title content topic pubDate : Option String) : Bool × NewsDb :=
  insertOrIgnore db ⟨portal, url, title, content, topic, pubDate⟩

/-- Python truthiness of an optional string (`None` and `""` are falsy). -/
def strTruthy : Option String → Bool
  | none => false
  | some s => s ≠ ""

/-- Python `a or b` on optional strings. -/
def pyOr (a b : Option String) : Option String := if strTruthy a then a else b

/-- A `pub_date` / `published_at` value as Python sees it: a string, a
datetime-like object whose `isoformat()` yields the given ISO string, or an
object whose `isoformat()` raises and whose `str()` yields the given text. -/
inductive PyTime where
  | str (s : String)
  | dt (iso : String)
  | raw (repr : String)
deriving DecidableEq

/-- Python truthiness of an optional timestamp value (only `None` and the
empty string are falsy; datetime objects are truthy). -/
def timeTruthy : Option PyTime → Bool
  | none => false
  | some (.str s) => s ≠ ""
  | some _ => true

/-- Python `a or b` on optional timestamp values. -/
def pyOrT (a b : Option PyTime) : Option PyTime := if timeTruthy a then a else b

/-- The timestamp coercion in `insert_articles`: strings pass through,
`isoformat()` is tried, and `str()` is the last resort. -/
def coercePubDate : Option PyTime → Option String
  | none => none
  | some (.str s) => some s
  | some (.dt iso) => some iso
  | some (.raw r) => some r

/-- The article dict shape accepted by `insert_articles` (absent keys are
`none`). -/
structure ArticleDict where
  url : Option String := none
  title : Option String := none
  content : Option String := none
  summary : Option String := none
  source : Option String := none
  portal : Option String := none
  keyword : Option String := none
  topic : Option String := none
  pubDate : Option PyTime := none
  publishedAt : Option PyTime := none
deriving DecidableEq

/-- The truthy URL of an article dict: `a.get("url")` followed by
`if not url: continue`. -/
def urlOf (a : ArticleDict) : Option String :=
  match a.url with
  | none => none
  | some u => if u = "" then none else some u

/-- The row `insert_articles` builds for an article with truthy URL `u`:
`portal ← source or portal or "unknown"`, `content ← content or summary`,
`topic ← keyword or topic`, `pub_date ← pub_date or published_at` coerced. -/
def mkRow (a : ArticleDict) (u : String) : NewsRow :=
  { portal := (pyOr (pyOr a.source a.portal) (some "unknown")).getD "unknown"
  , url := u
  , title := a.title
  , content := pyOr a.content a.summary
  , topic := pyOr a.keyword a.topic
  , pubDate := coercePubDate (pyOrT a.pubDate a.publishedAt) }

/-- Model of `insert_articles` from `core/db.py`: per item, skip silently when the URL
is falsy, otherwise `INSERT OR IGNORE` the mapped row; returns the count of
newly inserted rows and the final table. -/
def insert_articles : List ArticleDict → NewsDb → Nat × NewsDb
  | [], db => (0, db)
  | a :: rest, db =>
    match urlOf a with
    | none => insert_articles rest db
    | some u =>
      let ins := insertOrIgnore db (mkRow a u)
      let out := insert_articles rest ins.2
      ((if ins.1 then 1 else 0) + out.1, out.2)

/-! ## Search (`core/db.py`, `search_news` and `_like_params`) -/

/-- Python `str.strip()`: drop whitespace from both ends. -/
def stripWs (s : Str) : Str :=
  ((s.dropWhile Char.isWhitespace).reverse.dropWhile Char.isWhitespace).reverse

/-- The quoted-phrase scan of `search_news`: leftmost non-overlapping matches
of the pattern quote, one-or-more non-quotes, quote.  Returns the phrase
contents (already quote-free, so `strip` of quotes is the identity) and the
remainder text in which each match is replaced by a single space, exactly as
`re.findall` plus `re.sub` produce them.  The scanner state is the reversed
buffer of the currently open quote, when one is open. -/
def scanQ : List Char → Option (List Char) → List (List Char) × List Char
  | [], none => ([], [])
  | [], some buf => ([], '"' :: buf.reverse)
  | c :: rest, none =>
    if c = '"' then scanQ rest (some [])
    else
      let out := scanQ rest none
      (out.1, c :: out.2)
  | c :: rest, some buf =>
    if c = '"' then
      if buf.isEmpty then
        let out := scanQ rest (some [])
        (out.1, '"' :: out.2)
      else
        let out := scanQ rest none
        (buf.reverse :: out.1, ' ' :: out.2)
    else scanQ rest (c :: buf)

/-- Phrase extraction and remainder for a query string. -/
def splitQuery (q : Str) : List Str × Str := scanQ q none

/-- Whitespace tokenisation with empty tokens dropped, as
`[t for t in re.split(whitespace, remainder) if t]` produces. -/
def wordsW : List Char → List Char → List (List Char)
  | [], [] => []
  | [], buf => [buf.reverse]
  | c :: rest, buf =>
    if c.isWhitespace then
      if buf.isEmpty then wordsW rest []
      else buf.reverse :: wordsW rest []
    else wordsW rest (c :: buf)

/-- Tokens of the query remainder. -/
def queryTokens (rem : Str) : List Str := wordsW rem []

/-- SQL `LIKE` pattern matching with the SQLite default ASCII case folding:
`%` matches any run of characters, `_` any single character, and other
pattern characters match case-insensitively. -/
def likeMatch : Str → Str → Bool
  | [], s => s.isEmpty
  | p :: ps, [] => if p = '%' then likeMatch ps [] else false
  | p :: ps, c :: s' =>
    if p = '%' then likeMatch ps (c :: s') || likeMatch (p :: ps) s'
    else if p = '_' then likeMatch ps s'
    else (p.toLower = c.toLower : Bool) && likeMatch ps s'
  termination_by p s => (s.length, p.length)

/-- The `%term%` pattern `_like_params` builds for each term. -/
def termPattern (t : Str) : Str := '%' :: (t ++ ['%'])

/-- One `LIKE` comparison against an optional column value: SQL `NULL LIKE p`
is not a match. -/
def likeMatchOpt (pat : Str) : Option String → Bool
  | none => false
  | some s => likeMatch pat s.data

/-- The per-term clause of `_like_params`:
`(title LIKE %t% OR content LIKE %t%)`. -/
def likeClause (t : Str) (r : NewsRow) : Bool :=
  likeMatchOpt (termPattern t) r.title || likeMatchOpt (termPattern t) r.content

/-- The WHERE predicate `_like_params` builds: clauses joined by `OR` in any
mode and by `AND` otherwise; an empty term list yields `1=1`. -/
def like_params_match (terms : List Str) (anyMode : Bool) (r : NewsRow) : Bool :=
  if terms.isEmpty then true
  else if anyMode then terms.any (fun t => likeClause t r)
  else terms.all (fun t => likeClause t r)

/-- Model of `ORDER BY id DESC LIMIT n` over rows stored in insertion order. -/
def orderDescLimit (rows : List NewsRow) (limit : Nat) : List NewsRow :=
  rows.reverse.take limit

/-- Model of `search_news` from `core/db.py`.  `ftsOutcome` is the oracle for the FTS
`MATCH` query: `Except.error ()` models FTS being unavailable or the query
raising `sqlite3.OperationalError` at search time, which the code catches
before running the `LIKE` fallback over `phrases + tokens`.  An empty
stripped query returns no rows before any query runs. -/
def search_news (ftsOutcome : Except Unit (List NewsRow)) (db : NewsDb)
    (query : Str) (strategy : String) (limit : Nat) : List NewsRow :=
  if (stripWs query).isEmpty then []
  else
    match ftsOutcome with
    | .ok rows => rows
    | .error _ =>
      orderDescLimit
        (db.filter (like_params_match
          ((splitQuery (stripWs query)).1
            ++ queryTokens (splitQuery (stripWs query)).2)
          (strategy = "any"))) limit

/-- A term free of the SQL `LIKE` wildcard characters. -/
def noWild (t : Str) : Bool := t.all (fun c => c ≠ '%' ∧ c ≠ '_')

/-- Invariant relating a seen state before and after a collection step to the
items the step emitted: the state only grows, every emitted link's hash is
recorded afterwards and was not recorded before, emitted links are pairwise
distinct, and every emitted link is non-empty. -/
def CollectSpec (hash : String → String) (st st' : SeenSet)
    (items : List CandidateItem) : Prop :=
  (∀ h ∈ st, h ∈ st')
  ∧ (∀ i ∈ items, hash i.link ∈ st')
  ∧ (∀ i ∈ items, hash i.link ∉ st)
  ∧ (items.map (fun i => i.link)).Nodup
  ∧ (∀ i ∈ items, i.link ≠ "")

/-! ## Theorems -/

/-- C2: inserting a fresh URL returns true and adds one row; any later insert
with the same URL (whatever the other fields) returns false and changes
nothing, leaving exactly one stored row for that URL. -/
theorem C2_insert_news_dedup (db : NewsDb) (portal url : String)
    (title content topic pubDate : Option String)
    (h : urlExists db url = false) :
    (insert_news db portal url title content topic pubDate).1 = true
    ∧ (insert_news db portal url title content topic pubDate).2.length
        = db.length + 1
    ∧ (insert_news db portal url title content topic pubDate).2.countP
        (fun r => r.url = url) = 1
    ∧ ∀ (p' : String) (t' c' tp' pd' : Option String),
        insert_news (insert_news db portal url title content topic pubDate).2
            p' url t' c' tp' pd'
          = (false, (insert_news db portal url title content topic pubDate).2) := by
  have hcount : db.countP (fun r => decide (r.url = url)) = 0 := by
    rw [List.countP_eq_zero]
    intro r hr
    simp only [decide_eq_true_eq]
    intro hru
    have : db.any (fun r => r.url = url) = true :=
      List.any_eq_true.mpr ⟨r, hr, by simp [hru]⟩
    rw [urlExists] at h
    simp [this] at h
  refine ⟨?_, ?_, ?_, ?_⟩
  · simp [insert_news, insertOrIgnore, h]
  · simp [insert_news, insertOrIgnore, h]
  · simp only [insert_news, insertOrIgnore, h, Bool.false_eq_true, if_false]
    rw [List.countP_append]
    simp [hcount]
  · intro p' t' c' tp' pd'
    have hex : urlExists
        (insert_news db portal url title content topic pubDate).2 url = true := by
      simp only [insert_news, insertOrIgnore, h, Bool.false_eq_true, if_false]
      refine List.any_eq_true.mpr ⟨⟨portal, url, title, content, topic, pubDate⟩,
        by simp, by simp⟩
    generalize (insert_news db portal url title content topic pubDate).2 = db1 at hex ⊢
    simp [insert_news, insertOrIgnore, hex]

/-- C2 witness: a concrete instantiation with an empty table. -/
theorem C2_insert_news_dedup_witness :
    (insert_news [] "p" "u" none none none none).1 = true
    ∧ (insert_news [] "p" "u" none none none none).2.length = 0 + 1
    ∧ (insert_news [] "p" "u" none none none none).2.countP
        (fun r => r.url = "u") = 1
    ∧ ∀ (p' : String) (t' c' tp' pd' : Option String),
        insert_news (insert_news [] "p" "u" none none none none).2
            p' "u" t' c' tp' pd'
          = (false, (insert_news [] "p" "u" none none none none).2) :=
  C2_insert_news_dedup [] "p" "u" none none none none (by decide)

/-- C5: in auto mode, a URL whose netloc is a hard domain with a browser
configured is fetched directly by the browser fetcher; no HTTP attempt
happens, and the browser result is returned. -/
theorem C5_hard_domain_shortcut (cfg : HybridCfg) (netloc : String)
    (httpO : HttpOutcome) (browserO : Option Str)
    (hHard : netloc ∈ cfg.hardDomains) (hB : cfg.hasBrowser = true) :
    fetch_html cfg netloc "auto" httpO browserO
      = (.ok (fetch_with_browser browserO), [.browser]) := by
  rw [fetch_html]
  rw [if_neg (by decide), if_pos ⟨rfl, hHard, hB⟩]

/-- C5 witness: a concrete hard domain. -/
theorem C5_hard_domain_shortcut_witness :
    fetch_html { hasBrowser := true, hardDomains := ["example.com"] }
        "example.com" "auto" .noResp (some "ok".data)
      = (.ok (some "ok".data), [.browser]) := by
  have := C5_hard_domain_shortcut
    { hasBrowser := true, hardDomains := ["example.com"] }
    "example.com" .noResp (some "ok".data) (by decide) rfl
  rw [this]
  rfl

/-- C3: with the portal known and enabled, `rss_only` mode returns nothing
and issues no request of either kind, and `simple` mode issues exactly one
HTTP-fetcher request and never a rendering request, returning nothing when
the HTTP attempt raised or returned no response. -/
theorem C3_policy_mode_determinism (portals : String → Option PortalCfg)
    (portal netloc : String) (cfg : PortalCfg) (hybridAvailable : Bool)
    (httpO : HttpOutcome) (browserO : Option Str)
    (hcfg : portals portal = some cfg) (hen : cfg.enabled = true) :
    (cfg.scrapeMode = "rss_only" →
      fetch_article_soup portals portal netloc hybridAvailable httpO browserO
        = (none, []))
    ∧ (cfg.scrapeMode = "simple" →
        (fetch_article_soup portals portal netloc hybridAvailable httpO
            browserO).2 = [.httpReq]
        ∧ ((httpO = .exn ∨ httpO = .noResp) →
            (fetch_article_soup portals portal netloc hybridAvailable httpO
                browserO).1 = none)) := by
  constructor
  · intro hmode
    simp [fetch_article_soup, hcfg, hen, hmode]
  · intro hmode
    constructor
    · simp [fetch_article_soup, hcfg, hen, hmode]
    · intro hfail
      rcases hfail with hfail | hfail <;>
        simp [fetch_article_soup, hcfg, hen, hmode, hfail, base_fetch_html]

/-- C3 witness: concrete portal registries for both modes. -/
theorem C3_policy_mode_determinism_witness :
    (fetch_article_soup
        (fun p => if p = "a" then some ⟨true, "rss_only", []⟩ else none)
        "a" "x.com" true .noResp none = (none, []))
    ∧ ((fetch_article_soup
          (fun p => if p = "a" then some ⟨true, "simple", []⟩ else none)
          "a" "x.com" true .noResp none).2 = [.httpReq]
        ∧ (fetch_article_soup
            (fun p => if p = "a" then some ⟨true, "simple", []⟩ else none)
            "a" "x.com" true .noResp none).1 = none) := by
  refine ⟨?_, ?_, ?_⟩
  · exact (C3_policy_mode_determinism _ "a" "x.com" ⟨true, "rss_only", []⟩
      true .noResp none (by simp) rfl).1 rfl
  · exact ((C3_policy_mode_determinism _ "a" "x.com" ⟨true, "simple", []⟩
      true .noResp none (by simp) rfl).2 rfl).1
  · exact ((C3_policy_mode_determinism _ "a" "x.com" ⟨true, "simple", []⟩
      true .noResp none (by simp) rfl).2 rfl).2 (Or.inr rfl)

/-- C9: with a recorded timestamp `t` for the domain, a clock at or past `t`
and a pacing target drawn from the window, both fetchers' pacing sleeps put
the next request at least `min_delay` after `t` (the browser variant under
positive timestamps, which `time.time()` guarantees); the sleep depends only
on the domain's own recorded timestamp, and recording a timestamp for one
domain leaves every other domain's timestamp unchanged. -/
theorem C9_per_domain_pacing (minD maxD target : ℚ) (netloc : String)
    (st : PaceState) (t : ℚ) (hlast : st.lastTs netloc = some t)
    (hnow : t ≤ st.now) (h1 : minD ≤ target) (h2 : target ≤ maxD) :
    t + minD ≤ (sleep_if_needed target netloc st).now
    ∧ (0 < t → t + minD ≤ (browser_sleep_if_needed target netloc st).now)
    ∧ (∀ st' : PaceState, st'.now = st.now →
        st'.lastTs netloc = st.lastTs netloc →
        (sleep_if_needed target netloc st').now
            = (sleep_if_needed target netloc st).now
        ∧ (browser_sleep_if_needed target netloc st').now
            = (browser_sleep_if_needed target netloc st).now)
    ∧ (∀ d, d ≠ netloc → (update_last_ts netloc st).lastTs d = st.lastTs d) := by
  refine ⟨?_, ?_, ?_, ?_⟩
  · rw [sleep_if_needed, hlast]
    dsimp only
    split <;> ((try dsimp only); linarith)
  · intro ht
    rw [browser_sleep_if_needed, hlast]
    dsimp only
    rw [if_neg (by linarith)]
    split <;> ((try dsimp only); linarith)
  · intro st' hn hl
    constructor <;>
      (simp only [sleep_if_needed, browser_sleep_if_needed, hl, hlast, hn];
        split_ifs <;> simp [hn])
  · intro d hd
    rw [update_last_ts]
    simp [hd]

/-- C9 witness: concrete state, defaults 1.5 s and 3 s. -/
theorem C9_per_domain_pacing_witness :
    (10 : ℚ) + baseMinDelay
        ≤ (sleep_if_needed 2 "d.com"
            ⟨11, fun d => if d = "d.com" then some 10 else none⟩).now
    ∧ ((0 : ℚ) < 10 → (10 : ℚ) + baseMinDelay
        ≤ (browser_sleep_if_needed 2 "d.com"
            ⟨11, fun d => if d = "d.com" then some 10 else none⟩).now) := by
  have := C9_per_domain_pacing baseMinDelay 4 2 "d.com"
    ⟨11, fun d => if d = "d.com" then some 10 else none⟩ 10
    (by simp) (by norm_num) (by norm_num [baseMinDelay]) (by norm_num)
  exact ⟨this.1, this.2.1⟩

/-- A pattern that occurs inside a string is found by `containsSub`. -/
theorem containsSub_of_mem {pat s : Str} (h : pat <:+: s) :
    containsSub pat s = true :=
  decide_eq_true h

/-- C4: at the concrete failing input — every attempt answers 403 with the
header `Retry-After: soon` (any non-integer value, as an HTTP-date is) —
`BaseScraper.get` propagates the `ValueError` raised by `int(...)` instead of
returning; with the same response carrying an integer header value `0` it
degrades to `None` after the full default retry budget, with the documented
`5 * attempt` backoff sleeps. -/
theorem C4_retry_after_valueerror :
    (base_get {} (fun _ => .resp ⟨403, [], some "soon"⟩)).result = .error ()
    ∧ (base_get {} (fun _ => .resp ⟨403, [], some "0"⟩)).result = .ok none
    ∧ (base_get {} (fun _ => .resp ⟨403, [], some "0"⟩)).sleeps = [5, 10, 15] := by
  refine ⟨?_, ?_, ?_⟩ <;> decide

/-- C1 counterexample: a 200 response whose HTML is 2007 characters long (so
not short) but contains the keyword `captcha`.  The claim's classification
calls it not blocked, while `HybridScraper._fetch_with_base_and_check`
classifies it as blocked. -/
theorem C1_counterexample :
    claimBlocked { hasBrowser := true, hardDomains := [] }
        (.resp ⟨200, List.replicate 2000 'a' ++ "captcha".data, none⟩) = false
    ∧ (fetch_with_base_and_check { hasBrowser := true, hardDomains := [] }
        (.resp ⟨200, List.replicate 2000 'a' ++ "captcha".data, none⟩)).2
        = true := by
  have h7 : ("captcha".data).length = 7 := by decide
  have hlen : (List.replicate 2000 'a' ++ "captcha".data).length = 2007 := by
    rw [List.length_append, List.length_replicate, h7]
  have hempty : (List.replicate 2000 'a' ++ "captcha".data).isEmpty = false := by
    cases hc : (List.replicate 2000 'a' ++ "captcha".data).isEmpty
    · rfl
    · rw [List.isEmpty_iff_length_eq_zero, hlen] at hc
      exact absurd hc (by decide)
  have hlow : lowerStr (List.replicate 2000 'a' ++ "captcha".data)
      = List.replicate 2000 'a' ++ "captcha".data := by
    rw [lowerStr, List.map_append, List.map_replicate,
      show Char.toLower 'a' = 'a' from rfl,
      show List.map Char.toLower "captcha".data = "captcha".data from by decide]
  have hblock : looks_like_block_page { hasBrowser := true, hardDomains := [] }
      (List.replicate 2000 'a' ++ "captcha".data) = true := by
    rw [looks_like_block_page, hempty, hlen]
    rw [if_neg (by decide)]
    rw [anyKeyword]
    apply List.any_eq_true.mpr
    refine ⟨"captcha".data, by decide, ?_⟩
    apply containsSub_of_mem
    rw [hlow]
    exact ⟨List.replicate 2000 'a', [], by rw [List.append_nil]⟩
  have hclaim : ∀ html : Str, html.length = 2007 →
      claimBlocked { hasBrowser := true, hardDomains := [] }
        (.resp ⟨200, html, none⟩) = false := by
    intro html hl
    simp only [claimBlocked]
    rw [hl]
    show (decide ((200 : Nat) ∈ BLOCK_STATUS_CODES) || decide ((200 : Nat) ≠ 200)
      || decide ((2007 : Nat) < 2000)) = false
    decide
  have hfb : ∀ html : Str,
      looks_like_block_page { hasBrowser := true, hardDomains := [] } html = true →
      (fetch_with_base_and_check { hasBrowser := true, hardDomains := [] }
        (.resp ⟨200, html, none⟩)).2 = true := by
    intro html hbl
    simp only [fetch_with_base_and_check]
    rw [if_neg (by decide), if_neg (by decide)]
    exact hbl
  exact ⟨hclaim _ hlen, hfb _ hblock⟩

/-- C1 amended: in auto mode on a non-hard domain, the HTTP attempt is
classified as blocked exactly when the HTTP layer raised or returned no
response, or the status is a designated block status, or any other non-200,
or the HTML is empty or shorter than the minimum length threshold, or the
lower-cased HTML contains a suspicious block keyword; if not blocked the
parsed HTTP result is returned with no browser call; if blocked and a browser
is configured it is invoked once and its result returned; if blocked without
a browser the HTTP attempt's parsed result is returned. -/
theorem C1_auto_block_escalation (cfg : HybridCfg) (netloc : String)
    (httpO : HttpOutcome) (browserO : Option Str)
    (hHard : netloc ∉ cfg.hardDomains) :
    (fetch_with_base_and_check cfg httpO).2 = claimBlockedAmended cfg httpO
    ∧ ((fetch_with_base_and_check cfg httpO).2 = false →
        fetch_html cfg netloc "auto" httpO browserO
          = (.ok (fetch_with_base_and_check cfg httpO).1, [.http]))
    ∧ ((fetch_with_base_and_check cfg httpO).2 = true → cfg.hasBrowser = true →
        fetch_html cfg netloc "auto" httpO browserO
          = (.ok (fetch_with_browser browserO), [.http, .browser]))
    ∧ ((fetch_with_base_and_check cfg httpO).2 = true → cfg.hasBrowser = false →
        fetch_html cfg netloc "auto" httpO browserO
          = (.ok (fetch_with_base_and_check cfg httpO).1, [.http])) := by
  have hauto : ¬("auto" = "auto" ∧ netloc ∈ cfg.hardDomains ∧ cfg.hasBrowser = true) := by
    rintro ⟨-, hmem, -⟩
    exact hHard hmem
  refine ⟨?_, ?_, ?_, ?_⟩
  · cases httpO with
    | exn => rfl
    | noResp => rfl
    | resp r =>
      obtain ⟨st, tx, ra⟩ := r
      by_cases hb : st ∈ BLOCK_STATUS_CODES
      · simp [fetch_with_base_and_check, claimBlockedAmended, hb]
      · by_cases h200 : st = 200
        · subst h200
          simp only [fetch_with_base_and_check, claimBlockedAmended,
            looks_like_block_page]
          rw [if_neg hb, if_neg (by decide)]
          dsimp only
          rw [decide_eq_false hb, decide_eq_false (by decide : ¬((200 : Nat) ≠ 200))]
          simp only [Bool.false_or]
          by_cases he : tx.isEmpty <;>
            by_cases hl : tx.length < cfg.minBlockHtmlLen <;>
              simp [he, hl]
        · simp [fetch_with_base_and_check, claimBlockedAmended, hb, h200]
  · intro hnb
    have hsome : (fetch_with_base_and_check cfg httpO).1.isSome = true := by
      cases httpO with
      | exn => simp [fetch_with_base_and_check] at hnb
      | noResp => simp [fetch_with_base_and_check] at hnb
      | resp r =>
        obtain ⟨st, tx, ra⟩ := r
        by_cases hb : st ∈ BLOCK_STATUS_CODES
        · simp [fetch_with_base_and_check, hb] at hnb
        · by_cases h200 : st = 200
          · subst h200
            simp [fetch_with_base_and_check, hb]
          · simp [fetch_with_base_and_check, hb, h200] at hnb
    rw [fetch_html, if_neg (by decide), if_neg hauto, if_neg (by decide),
      if_neg (by decide), if_pos ⟨hsome, hnb⟩]
  · intro hb hbr
    rw [fetch_html, if_neg (by decide), if_neg hauto, if_neg (by decide),
      if_neg (by decide), if_neg (by simp [hb]), if_pos hbr]
  · intro hb hbr
    rw [fetch_html, if_neg (by decide), if_neg hauto, if_neg (by decide),
      if_neg (by decide), if_neg (by simp [hb]), if_neg (by simp [hbr])]

/-- C1 witness: a blocked short 200 response on a non-hard domain escalates to
the configured browser, whose HTML is returned. -/
theorem C1_auto_block_escalation_witness :
    (fetch_with_base_and_check { hasBrowser := true, hardDomains := [] }
        (.resp ⟨200, "hi".data, none⟩)).2
      = claimBlockedAmended { hasBrowser := true, hardDomains := [] }
          (.resp ⟨200, "hi".data, none⟩)
    ∧ fetch_html { hasBrowser := true, hardDomains := [] } "x.com" "auto"
        (.resp ⟨200, "hi".data, none⟩) (some "rendered".data)
      = (.ok (some "rendered".data), [.http, .browser]) := by
  have h := C1_auto_block_escalation { hasBrowser := true, hardDomains := [] }
    "x.com" (.resp ⟨200, "hi".data, none⟩) (some "rendered".data) (by decide)
  refine ⟨h.1, ?_⟩
  rw [h.2.2.1 (by decide) rfl]
  rfl

/-- Composition of the collection invariant over consecutive phases. -/
theorem CollectSpec.comp {hash : String → String} {st st₁ st₂ : SeenSet}
    {i₁ i₂ : List CandidateItem} (h₁ : CollectSpec hash st st₁ i₁)
    (h₂ : CollectSpec hash st₁ st₂ i₂) :
    CollectSpec hash st st₂ (i₁ ++ i₂) := by
  obtain ⟨s₁, mem₁, nmem₁, nd₁, ne₁⟩ := h₁
  obtain ⟨s₂, mem₂, nmem₂, nd₂, ne₂⟩ := h₂
  refine ⟨fun h hh => s₂ h (s₁ h hh), ?_, ?_, ?_, ?_⟩
  · intro i hi
    rcases List.mem_append.mp hi with hi | hi
    · exact s₂ _ (mem₁ i hi)
    · exact mem₂ i hi
  · intro i hi
    rcases List.mem_append.mp hi with hi | hi
    · exact nmem₁ i hi
    · exact fun hst => nmem₂ i hi (s₁ _ hst)
  · rw [List.map_append, List.nodup_append]
    refine ⟨nd₁, nd₂, ?_⟩
    intro l hl₁ hl₂
    obtain ⟨a, ha, hal⟩ := List.mem_map.mp hl₁
    obtain ⟨b, hb, hbl⟩ := List.mem_map.mp hl₂
    have hmem : hash a.link ∈ st₁ := mem₁ a ha
    have hnot : hash b.link ∉ st₁ := nmem₂ b hb
    rw [hal, ← hbl] at hmem
    exact hnot hmem
  · intro i hi
    rcases List.mem_append.mp hi with hi | hi
    · exact ne₁ i hi
    · exact ne₂ i hi

/-- The entry loop of `collect` satisfies the collection invariant. -/
theorem collectEntries_spec (hash : String → String) (pid : String) :
    ∀ (entries : List RssEntry) (st : SeenSet),
      CollectSpec hash st (collectEntries hash pid entries st).2
        (collectEntries hash pid entries st).1 := by
  intro entries
  induction entries with
  | nil =>
    intro st
    exact ⟨fun h hh => hh, by simp [collectEntries], by simp [collectEntries],
      by simp [collectEntries], by simp [collectEntries]⟩
  | cons e rest ih =>
    intro st
    match hl : e.link with
    | none =>
      simpa [collectEntries, hl] using ih st
    | some l =>
      by_cases hemp : l = ""
      · simpa [collectEntries, hl, hemp] using ih st
      · by_cases hseen : sm_seen hash st l = true
        · simpa [collectEntries, hl, hemp, hseen] using ih st
        · have hnot : hash l ∉ st := by
            intro hmem
            exact hseen (by simpa [sm_seen] using hmem)
          have hmark : sm_mark_seen hash st l = hash l :: st := by
            simp [sm_mark_seen, hnot]
          have step :
              collectEntries hash pid (e :: rest) st
                = (⟨pid, l, e.rssDate⟩ ::
                    (collectEntries hash pid rest (sm_mark_seen hash st l)).1,
                  (collectEntries hash pid rest (sm_mark_seen hash st l)).2) := by
            simp [collectEntries, hl, hemp, hseen]
          obtain ⟨s₁, mem₁, nmem₁, nd₁, ne₁⟩ := ih (sm_mark_seen hash st l)
          rw [step]
          refine ⟨?_, ?_, ?_, ?_, ?_⟩
          · intro h hh
            exact s₁ h (by rw [hmark]; exact List.mem_cons_of_mem _ hh)
          · intro i hi
            rcases List.mem_cons.mp hi with hi | hi
            · subst hi
              exact s₁ _ (by rw [hmark]; exact List.mem_cons_self _ _)
            · exact mem₁ i hi
          · intro i hi
            rcases List.mem_cons.mp hi with hi | hi
            · subst hi
              exact hnot
            · intro hst
              exact nmem₁ i hi (by rw [hmark]; exact List.mem_cons_of_mem _ hst)
          · rw [List.map_cons, List.nodup_cons]
            refine ⟨?_, nd₁⟩
            intro hmem
            obtain ⟨a, ha, hal⟩ := List.mem_map.mp hmem
            have : hash a.link ∉ sm_mark_seen hash st l := nmem₁ a ha
            rw [hal, hmark] at this
            exact this (List.mem_cons_self _ _)
          · intro i hi
            rcases List.mem_cons.mp hi with hi | hi
            · subst hi
              exact hemp
            · exact ne₁ i hi

/-- The feed loop of `collect` satisfies the collection invariant. -/
theorem collectFeeds_spec (hash : String → String) (pid : String) :
    ∀ (feeds : List (Option (List RssEntry))) (st : SeenSet),
      CollectSpec hash st (collectFeeds hash pid feeds st).2
        (collectFeeds hash pid feeds st).1 := by
  intro feeds
  induction feeds with
  | nil =>
    intro st
    exact ⟨fun h hh => hh, by simp [collectFeeds], by simp [collectFeeds],
      by simp [collectFeeds], by simp [collectFeeds]⟩
  | cons f rest ih =>
    intro st
    match f with
    | none => simpa [collectFeeds] using ih st
    | some entries =>
      have step :
          collectFeeds hash pid (some entries :: rest) st
            = ((collectEntries hash pid entries st).1
                ++ (collectFeeds hash pid rest
                    (collectEntries hash pid entries st).2).1,
              (collectFeeds hash pid rest
                (collectEntries hash pid entries st).2).2) := by
        simp [collectFeeds]
      rw [step]
      exact (collectEntries_spec hash pid entries st).comp (ih _)

/-- A full `collect` pass satisfies the collection invariant. -/
theorem collect_spec (hash : String → String) :
    ∀ (portals : List PortalFeeds) (st : SeenSet),
      CollectSpec hash st (collect hash portals st).2
        (collect hash portals st).1 := by
  intro portals
  induction portals with
  | nil =>
    intro st
    exact ⟨fun h hh => hh, by simp [collect], by simp [collect],
      by simp [collect], by simp [collect]⟩
  | cons p rest ih =>
    intro st
    have step :
        collect hash (p :: rest) st
          = ((collectFeeds hash p.portalId p.feeds st).1
              ++ (collect hash rest
                  (collectFeeds hash p.portalId p.feeds st).2).1,
            (collect hash rest
              (collectFeeds hash p.portalId p.feeds st).2).2) := by
      simp [collect]
    rw [step]
    exact (collectFeeds_spec hash p.portalId p.feeds st).comp (ih _)

/-- C6: hashes are never removed — `mark_seen` only grows the registry and a
collection pass only grows it further — and once a URL's hash is in the
registry, a collection pass over feed content containing that URL emits no
candidate item for it (the entry is discarded before any article fetch). -/
theorem C6_seen_registry_monotone (hash : String → String) (st : SeenSet)
    (url : String) (portals : List PortalFeeds) :
    (∀ h ∈ st, h ∈ sm_mark_seen hash st url)
    ∧ (∀ h ∈ st, h ∈ (collect hash portals st).2)
    ∧ (sm_seen hash st url = true →
        ∀ i ∈ (collect hash portals st).1, i.link ≠ url) := by
  refine ⟨?_, fun h hh => (collect_spec hash portals st).1 h hh, ?_⟩
  · intro h hh
    rw [sm_mark_seen]
    split
    · exact hh
    · exact List.mem_cons_of_mem _ hh
  · intro hseen i hi hlink
    have hmem : hash url ∈ st := by simpa [sm_seen] using hseen
    have hnot : hash i.link ∉ st := (collect_spec hash portals st).2.2.1 i hi
    rw [hlink] at hnot
    exact hnot hmem

/-- C6 witness: with the identity hash and the URL `u` already seen, a feed
containing `u` yields no candidate item for it, and the registry keeps the
hash. -/
theorem C6_seen_registry_monotone_witness :
    (∀ h ∈ ["u"], h ∈ sm_mark_seen id ["u"] "u")
    ∧ (∀ h ∈ ["u"],
        h ∈ (collect id [⟨"p", [some [⟨some "u", none⟩]]⟩] ["u"]).2)
    ∧ (∀ i ∈ (collect id [⟨"p", [some [⟨some "u", none⟩]]⟩] ["u"]).1,
        i.link ≠ "u") := by
  have h := C6_seen_registry_monotone id ["u"] "u"
    [⟨"p", [some [⟨some "u", none⟩]]⟩]
  exact ⟨h.1, h.2.1, h.2.2 (by decide)⟩

/-- C10: one `collect` pass never returns two items with the same link, and
every returned item has a non-empty link. -/
theorem C10_collect_links_nodup (hash : String → String)
    (portals : List PortalFeeds) (st : SeenSet) :
    ((collect hash portals st).1.map (fun i => i.link)).Nodup
    ∧ ∀ i ∈ (collect hash portals st).1, i.link ≠ "" := by
  exact ⟨(collect_spec hash portals st).2.2.2.1,
    (collect_spec hash portals st).2.2.2.2⟩

/-- The batch insert count is exactly the number of rows the table grew by. -/
theorem insert_articles_count (arts : List ArticleDict) :
    ∀ db : NewsDb,
      (insert_articles arts db).2.length = db.length + (insert_articles arts db).1 := by
  induction arts with
  | nil => intro db; simp [insert_articles]
  | cons a rest ih =>
    intro db
    cases h : urlOf a with
    | none => simp [insert_articles, h, ih db]
    | some u =>
      by_cases hex : urlExists db (mkRow a u).url = true
      · simp [insert_articles, h, insertOrIgnore, hex, ih db]
      · have hex' : urlExists db (mkRow a u).url = false := by
          revert hex; cases urlExists db (mkRow a u).url <;> simp
        have := ih (db ++ [mkRow a u])
        simp only [insert_articles, h, insertOrIgnore, hex', Bool.false_eq_true,
          if_false]
        simp only [if_true]
        rw [this]
        simp
        omega

/-- C8: the batch count equals the number of new rows; an item with a falsy
URL is dropped silently; a fresh URL inserts the mapped row and counts one, a
duplicate URL inserts nothing and counts zero; and the mapped row stores
portal falling back through source and portal to the literal unknown, content
falling back to summary, topic from keyword falling back to topic, and a
pub-date string taken verbatim, or from `isoformat()`, or from the last-resort
stringification. -/
theorem C8_insert_articles_shape (arts : List ArticleDict) (db : NewsDb)
    (a : ArticleDict) (u : String) :
    ((insert_articles arts db).2.length = db.length + (insert_articles arts db).1)
    ∧ (urlOf a = none → insert_articles (a :: arts) db = insert_articles arts db)
    ∧ (urlOf a = some u → urlExists db u = false →
        insert_articles [a] db = (1, db ++ [mkRow a u]))
    ∧ (urlOf a = some u → urlExists db u = true →
        insert_articles [a] db = (0, db))
    ∧ (strTruthy a.source = false → strTruthy a.portal = false →
        (mkRow a u).portal = "unknown")
    ∧ (∀ s, a.source = some s → s ≠ "" → (mkRow a u).portal = s)
    ∧ (∀ s, strTruthy a.source = false → a.portal = some s → s ≠ "" →
        (mkRow a u).portal = s)
    ∧ (strTruthy a.content = false → (mkRow a u).content = a.summary)
    ∧ (∀ c, a.content = some c → c ≠ "" → (mkRow a u).content = some c)
    ∧ (strTruthy a.keyword = false → (mkRow a u).topic = a.topic)
    ∧ (∀ k, a.keyword = some k → k ≠ "" → (mkRow a u).topic = some k)
    ∧ (∀ s, pyOrT a.pubDate a.publishedAt = some (.str s) →
        (mkRow a u).pubDate = some s)
    ∧ (∀ iso, pyOrT a.pubDate a.publishedAt = some (.dt iso) →
        (mkRow a u).pubDate = some iso)
    ∧ (∀ r, pyOrT a.pubDate a.publishedAt = some (.raw r) →
        (mkRow a u).pubDate = some r) := by
  refine ⟨insert_articles_count arts db, ?_, ?_, ?_, ?_, ?_, ?_, ?_, ?_, ?_, ?_,
    ?_, ?_, ?_⟩
  · intro h
    simp [insert_articles, h]
  · intro h hex
    have hu : (mkRow a u).url = u := rfl
    simp [insert_articles, h, insertOrIgnore, hu, hex]
  · intro h hex
    have hu : (mkRow a u).url = u := rfl
    simp [insert_articles, h, insertOrIgnore, hu, hex]
  · intro hs hp
    simp [mkRow, pyOr, hs, hp]
  · intro s hs hne
    simp [mkRow, pyOr, strTruthy, hs, hne]
  · intro s hs hp hne
    cases hsrc : a.source with
    | none => simp [mkRow, pyOr, strTruthy, hsrc, hp, hne]
    | some ssrc =>
      rw [hsrc] at hs
      simp only [strTruthy, Bool.not_eq_true', decide_eq_true_eq] at hs
      simp [mkRow, pyOr, strTruthy, hsrc, hs, hp, hne]
  · intro hc
    simp [mkRow, pyOr, hc]
  · intro c hc hne
    simp [mkRow, pyOr, strTruthy, hc, hne]
  · intro hk
    simp [mkRow, pyOr, hk]
  · intro k hk hne
    simp [mkRow, pyOr, strTruthy, hk, hne]
  · intro s hs
    simp [mkRow, hs, coercePubDate]
  · intro iso hs
    simp [mkRow, hs, coercePubDate]
  · intro r hs
    simp [mkRow, hs, coercePubDate]

/-- C8 witness: one concrete article exercising the summary, portal and
isoformat fallbacks against an empty table. -/
theorem C8_insert_articles_shape_witness :
    (insert_articles
        [{ url := some "u", summary := some "s", portal := some "p",
           publishedAt := some (.dt "2024-01-01T00:00:00") }] []
      = (1, [] ++ [mkRow
          { url := some "u", summary := some "s", portal := some "p",
            publishedAt := some (.dt "2024-01-01T00:00:00") } "u"]))
    ∧ (mkRow
        { url := some "u", summary := some "s", portal := some "p",
          publishedAt := some (.dt "2024-01-01T00:00:00") } "u").portal = "p"
    ∧ (mkRow
        { url := some "u", summary := some "s", portal := some "p",
          publishedAt := some (.dt "2024-01-01T00:00:00") } "u").content = some "s"
    ∧ (mkRow
        { url := some "u", summary := some "s", portal := some "p",
          publishedAt := some (.dt "2024-01-01T00:00:00") } "u").pubDate
        = some "2024-01-01T00:00:00" := by
  have h := C8_insert_articles_shape []
    []
    { url := some "u", summary := some "s", portal := some "p",
      publishedAt := some (.dt "2024-01-01T00:00:00") }
    "u"
  refine ⟨h.2.2.1 (by decide) (by decide), ?_, ?_, ?_⟩
  · exact h.2.2.2.2.2.2.1 "p" (by decide) (by decide) (by decide)
  · exact h.2.2.2.2.2.2.2.1 (by decide)
  · exact h.2.2.2.2.2.2.2.2.2.2.2.2.1 "2024-01-01T00:00:00" (by decide)

/-- Unfolding for the empty pattern. -/
theorem likeMatch_nil_pat (s : Str) : likeMatch [] s = s.isEmpty := by
  cases s <;> simp [likeMatch]

/-- Unfolding for a `%`-headed pattern on the empty string. -/
theorem likeMatch_pct_nil (ps : Str) : likeMatch ('%' :: ps) [] = likeMatch ps [] := by
  simp [likeMatch]

/-- Unfolding for a `%`-headed pattern on a non-empty string. -/
theorem likeMatch_pct_cons (ps : Str) (c : Char) (s' : Str) :
    likeMatch ('%' :: ps) (c :: s')
      = (likeMatch ps (c :: s') || likeMatch ('%' :: ps) s') := by
  simp [likeMatch]

/-- Unfolding for a literal-headed pattern on the empty string. -/
theorem likeMatch_lit_nil (p : Char) (ps : Str) (hp : p ≠ '%') :
    likeMatch (p :: ps) [] = false := by
  simp [likeMatch, hp]

/-- Unfolding for a literal-headed pattern on a non-empty string. -/
theorem likeMatch_lit_cons (p : Char) (ps : Str) (c : Char) (s' : Str)
    (hp : p ≠ '%') (hu : p ≠ '_') :
    likeMatch (p :: ps) (c :: s')
      = ((p.toLower = c.toLower : Bool) && likeMatch ps s') := by
  simp [likeMatch, hp, hu]

/-- Unfolding for a `_`-headed pattern on a non-empty string. -/
theorem likeMatch_usc_cons (ps : Str) (c : Char) (s' : Str) :
    likeMatch ('_' :: ps) (c :: s') = likeMatch ps s' := by
  simp [likeMatch]

/-- A leading `%` may match the empty run: a match of the tail pattern is a
match of the `%`-headed pattern. -/
theorem likeMatch_pct_of_tail (ps s : Str) (h : likeMatch ps s = true) :
    likeMatch ('%' :: ps) s = true := by
  cases s with
  | nil => rw [likeMatch_pct_nil]; exact h
  | cons c s' => rw [likeMatch_pct_cons, h]; simp

/-- A lone `%` pattern matches every string. -/
theorem likeMatch_pct (s : Str) : likeMatch ['%'] s = true := by
  induction s with
  | nil =>
    rw [likeMatch_pct_nil, likeMatch_nil_pat]
    rfl
  | cons c s' ih =>
    rw [likeMatch_pct_cons, ih]
    simp

/-- A pattern of `%` signs only matches every string. -/
theorem likeMatch_pct_run (n : Nat) : ∀ s : Str,
    likeMatch (List.replicate (n + 1) '%') s = true := by
  induction n with
  | zero => exact likeMatch_pct
  | succ m ih =>
    intro s
    rw [List.replicate_succ]
    exact likeMatch_pct_of_tail _ _ (ih s)

/-- A string case-equal to the pattern head run is matched by the pattern
followed by `%`, on wildcard-free patterns. -/
theorem likeMatch_ci_self (t : Str) : ∀ (t' s₂ : Str), noWild t = true →
    lowerStr t' = lowerStr t → likeMatch (t ++ ['%']) (t' ++ s₂) = true := by
  induction t with
  | nil =>
    intro t' s₂ _ hlow
    have ht' : t' = [] := by
      rw [lowerStr, lowerStr] at hlow
      simpa using hlow
    subst ht'
    exact likeMatch_pct s₂
  | cons c cs ih =>
    intro t' s₂ hw hlow
    rw [noWild, List.all_cons, Bool.and_eq_true] at hw
    obtain ⟨hc0, hwcs⟩ := hw
    rw [decide_eq_true_eq] at hc0
    obtain ⟨hp, hu⟩ := hc0
    cases t' with
    | nil =>
      exact absurd hlow (by simp [lowerStr])
    | cons d ds =>
      rw [lowerStr, lowerStr, List.map_cons, List.map_cons] at hlow
      obtain ⟨hhead, htail⟩ := List.cons.inj hlow
      rw [List.cons_append, List.cons_append,
        likeMatch_lit_cons c _ d _ hp hu]
      have hcd : (c.toLower = d.toLower : Bool) = true := by
        rw [decide_eq_true_eq]
        exact hhead.symm
      rw [hcd, ih ds s₂ (by rw [noWild]; exact hwcs) htail]
      rfl

/-- Self-matching: the pattern built from `t` itself followed by `%` matches
any string starting with `t`, for arbitrary `t` (wildcards included). -/
theorem likeMatch_self (t : Str) : ∀ s₂ : Str,
    likeMatch (t ++ ['%']) (t ++ s₂) = true := by
  induction t with
  | nil => exact likeMatch_pct
  | cons c cs ih =>
    intro s₂
    by_cases hp : c = '%'
    · subst hp
      rw [List.cons_append, List.cons_append, likeMatch_pct_cons]
      rw [likeMatch_pct_of_tail _ _ (ih s₂)]
      simp
    · by_cases hu : c = '_'
      · subst hu
        rw [List.cons_append, List.cons_append, likeMatch_usc_cons]
        exact ih s₂
      · rw [List.cons_append, List.cons_append,
          likeMatch_lit_cons c _ c _ hp hu, ih s₂]
        simp

/-- The `%t%` pattern matches any string containing an occurrence of `t`. -/
theorem likeMatch_pat_of_occurs (t pre s₂ : Str) :
    likeMatch ('%' :: (t ++ ['%'])) (pre ++ (t ++ s₂)) = true := by
  induction pre with
  | nil =>
    rw [List.nil_append]
    exact likeMatch_pct_of_tail _ _ (likeMatch_self t s₂)
  | cons c pre' ih =>
    rw [List.cons_append, likeMatch_pct_cons, ih]
    simp

/-- The `%t%` pattern matches any string containing a case-equal occurrence
of a wildcard-free `t`. -/
theorem likeMatch_pat_of_occurs_ci (t t' pre s₂ : Str) (hw : noWild t = true)
    (hlow : lowerStr t' = lowerStr t) :
    likeMatch ('%' :: (t ++ ['%'])) (pre ++ (t' ++ s₂)) = true := by
  induction pre with
  | nil =>
    rw [List.nil_append]
    exact likeMatch_pct_of_tail _ _ (likeMatch_ci_self t t' s₂ hw hlow)
  | cons c pre' ih =>
    rw [List.cons_append, likeMatch_pct_cons, ih]
    simp

/-- Converse on wildcard-free patterns: a `t%` match forces `t` to be a
case-folded prefix of the string. -/
theorem likeMatch_prefix_conv (t : Str) : ∀ s : Str, noWild t = true →
    likeMatch (t ++ ['%']) s = true → lowerStr t <+: lowerStr s := by
  induction t with
  | nil =>
    intro s _ _
    exact List.nil_prefix
  | cons c cs ih =>
    intro s hw hm
    rw [noWild, List.all_cons, Bool.and_eq_true] at hw
    obtain ⟨hc0, hwcs⟩ := hw
    rw [decide_eq_true_eq] at hc0
    obtain ⟨hp, hu⟩ := hc0
    rw [List.cons_append] at hm
    cases s with
    | nil =>
      rw [likeMatch_lit_nil c _ hp] at hm
      exact absurd hm (by decide)
    | cons d ds =>
      rw [likeMatch_lit_cons c _ d _ hp hu, Bool.and_eq_true] at hm
      obtain ⟨hc, hrest⟩ := hm
      rw [decide_eq_true_eq] at hc
      obtain ⟨r, hr⟩ := ih ds (by rw [noWild]; exact hwcs) hrest
      rw [lowerStr, lowerStr, List.map_cons, List.map_cons]
      refine ⟨r, ?_⟩
      rw [List.cons_append, hc]
      rw [lowerStr] at hr
      rw [show List.map Char.toLower ds = lowerStr ds from rfl, hr]

/-- Converse on wildcard-free terms: a `%t%` match forces `t` to occur in the
string up to case folding. -/
theorem likeMatch_occurs_conv (t : Str) : ∀ s : Str, noWild t = true →
    likeMatch ('%' :: (t ++ ['%'])) s = true → lowerStr t <:+: lowerStr s := by
  intro s
  induction s with
  | nil =>
    intro hw hm
    rw [likeMatch_pct_nil] at hm
    exact (likeMatch_prefix_conv t [] hw hm).isInfix
  | cons d ds ih =>
    intro hw hm
    rw [likeMatch_pct_cons, Bool.or_eq_true] at hm
    rcases hm with hm | hm
    · exact (likeMatch_prefix_conv t (d :: ds) hw hm).isInfix
    · have hds := ih hw hm
      show lowerStr t <:+: Char.toLower d :: lowerStr ds
      exact List.infix_cons hds

/-- With the FTS query failing and a query that parses to a single term, the
search reduces to the `LIKE` fallback filter over that term. -/
theorem search_news_fallback_single (db : NewsDb) (q t : Str) (strategy : String)
    (limit : Nat)
    (hph : (splitQuery (stripWs q)).1 = [])
    (htok : queryTokens (splitQuery (stripWs q)).2 = [t]) :
    search_news (.error ()) db q strategy limit
      = orderDescLimit (db.filter (fun r => likeClause t r)) limit := by
  have hne : (stripWs q).isEmpty = false := by
    cases hq : stripWs q with
    | nil =>
      rw [hq] at htok
      have h0 : queryTokens (splitQuery ([] : Str)).2 = [] := rfl
      rw [h0] at htok
      exact absurd htok (by simp)
    | cons c s' => rfl
  rw [search_news, if_neg (by rw [hne]; simp)]
  rw [hph, htok, List.nil_append]
  have hlp : ∀ r : NewsRow,
      like_params_match [t] (strategy = "any" : Bool) r = likeClause t r := by
    intro r
    by_cases hs : strategy = "any" <;> simp [like_params_match, hs]
  rw [List.filter_congr (fun r _ => hlp r)]

/-- C7 counterexample: under the `LIKE` fallback, the term consisting of the
single wildcard `%` returns a row although it is not a substring of the row's
title or content, and the term `nirvana` returns a row whose content is
`NIRVANA` although the term is not literally a substring of it — so a query
for a substring absent from title and content can return rows. -/
theorem C7_counterexample :
    (¬ "%".data <:+: "abc".data
      ∧ search_news (.error ())
          [⟨"p", "u", none, some "abc", none, none⟩] "%".data "all" 50
        = [⟨"p", "u", none, some "abc", none, none⟩])
    ∧ (¬ "nirvana".data <:+: "NIRVANA".data
      ∧ search_news (.error ())
          [⟨"p2", "u2", none, some "NIRVANA", none, none⟩] "nirvana".data "all" 50
        = [⟨"p2", "u2", none, some "NIRVANA", none, none⟩]) := by
  refine ⟨⟨by decide, ?_⟩, ⟨by decide, ?_⟩⟩
  · rw [search_news_fallback_single _ _ "%".data _ _ (by decide) (by decide)]
    have hm : likeClause "%".data ⟨"p", "u", none, some "abc", none, none⟩ = true := by
      rw [likeClause]
      have h := likeMatch_pct_run 2 "abc".data
      have hc : likeMatchOpt (termPattern "%".data) (some "abc") = true := by
        rw [likeMatchOpt]
        exact h
      rw [show (⟨"p", "u", none, some "abc", none, none⟩ : NewsRow).content
          = some "abc" from rfl, hc]
      simp
    rw [List.filter_cons]
    dsimp only
    rw [hm]
    rw [if_pos rfl]
    rw [List.filter_nil, orderDescLimit]
    rfl
  · rw [search_news_fallback_single _ _ "nirvana".data _ _ (by decide) (by decide)]
    have h := likeMatch_pat_of_occurs_ci "nirvana".data "NIRVANA".data [] []
      (by decide) (by decide)
    rw [List.nil_append, List.append_nil] at h
    have hm : likeClause "nirvana".data
        ⟨"p2", "u2", none, some "NIRVANA", none, none⟩ = true := by
      rw [likeClause]
      have hc : likeMatchOpt (termPattern "nirvana".data) (some "NIRVANA") = true := by
        rw [likeMatchOpt]
        exact h
      rw [show (⟨"p2", "u2", none, some "NIRVANA", none, none⟩ : NewsRow).content
          = some "NIRVANA" from rfl, hc]
      simp
    rw [List.filter_cons]
    dsimp only
    rw [hm]
    rw [if_pos rfl]
    rw [List.filter_nil, orderDescLimit]
    rfl

/-- C7 amended: when full-text search fails at query time the search falls
back to `LIKE` substring matching over title and content; under the fallback
a row whose content contains the searched term is still returned (when the
table fits in the limit), and a single wildcard-free term that occurs, even
up to ASCII case folding, in no row's title or content returns no rows. -/
theorem C7_like_fallback (db : NewsDb) (q t : Str) (strategy : String)
    (limit : Nat)
    (hph : (splitQuery (stripWs q)).1 = [])
    (htok : queryTokens (splitQuery (stripWs q)).2 = [t]) :
    (∀ r ∈ db, ∀ c : String, r.content = some c → t <:+: c.data →
        db.length ≤ limit → r ∈ search_news (.error ()) db q strategy limit)
    ∧ (noWild t = true →
        (∀ r ∈ db,
          (∀ s : String, r.title = some s → ¬ lowerStr t <:+: lowerStr s.data)
          ∧ (∀ s : String, r.content = some s → ¬ lowerStr t <:+: lowerStr s.data)) →
        search_news (.error ()) db q strategy limit = []) := by
  have hred := search_news_fallback_single db q t strategy limit hph htok
  constructor
  · intro r hr c hc hinf hlim
    rw [hred]
    have hmatch : likeClause t r = true := by
      rw [likeClause]
      have hco : likeMatchOpt (termPattern t) r.content = true := by
        rw [hc, likeMatchOpt]
        obtain ⟨pre, suf, hps⟩ := hinf
        rw [← hps, List.append_assoc]
        exact likeMatch_pat_of_occurs t pre suf
      rw [hco]
      simp
    rw [orderDescLimit]
    have hmem : r ∈ db.filter (fun r => likeClause t r) :=
      List.mem_filter.mpr ⟨hr, hmatch⟩
    have hlen : (db.filter (fun r => likeClause t r)).reverse.length ≤ limit := by
      rw [List.length_reverse]
      exact le_trans (List.length_filter_le _ _) hlim
    rw [List.take_of_length_le hlen]
    exact List.mem_reverse.mpr hmem
  · intro hw habs
    rw [hred]
    have hfil : db.filter (fun r => likeClause t r) = [] := by
      rw [List.filter_eq_nil_iff]
      intro r hr hmatch
      rw [likeClause, Bool.or_eq_true] at hmatch
      obtain ⟨habs_t, habs_c⟩ := habs r hr
      rcases hmatch with hm | hm
      · cases hti : r.title with
        | none =>
          rw [hti, likeMatchOpt] at hm
          exact absurd hm (by decide)
        | some s =>
          rw [hti, likeMatchOpt] at hm
          exact habs_t s hti (likeMatch_occurs_conv t s.data hw hm)
      · cases hco : r.content with
        | none =>
          rw [hco, likeMatchOpt] at hm
          exact absurd hm (by decide)
        | some s =>
          rw [hco, likeMatchOpt] at hm
          exact habs_c s hco (likeMatch_occurs_conv t s.data hw hm)
    rw [hfil, orderDescLimit]
    simp

/-- C7 witness: searching `b` under the failing-FTS fallback returns the row
whose content is `abc`; searching `z` returns no rows. -/
theorem C7_like_fallback_witness :
    (⟨"p", "u", none, some "abc", none, none⟩ : NewsRow)
      ∈ search_news (.error ())
          [⟨"p", "u", none, some "abc", none, none⟩] "b".data "all" 50
    ∧ search_news (.error ())
        [⟨"p", "u", none, some "abc", none, none⟩] "z".data "all" 50 = [] := by
  constructor
  · exact (C7_like_fallback [⟨"p", "u", none, some "abc", none, none⟩]
        "b".data "b".data "all" 50 (by decide) (by decide)).1
      ⟨"p", "u", none, some "abc", none, none⟩ (by simp) "abc" rfl
      (by decide) (by decide)
  · refine (C7_like_fallback [⟨"p", "u", none, some "abc", none, none⟩]
        "z".data "z".data "all" 50 (by decide) (by decide)).2 (by decide) ?_
    intro r hr
    rw [List.mem_singleton] at hr
    subst hr
    constructor
    · intro s hs
      exact absurd hs (by simp)
    · intro s hs
      have hs' := Option.some.inj hs
      subst hs'
      decide

end NewsScrap
